import Mathlib

/-!
Verification of `train/models.py` (nnsplit training module).

Shallow embedding conventions: tensors are (nested) lists; machine floats
are modelled as exact rationals where only field arithmetic and comparisons
occur, and as real numbers where transcendental functions (exp, log, tanh)
occur. Torch/numpy/sklearn library calls are modelled by explicit Lean
functions faithful to their documented semantics; randomness is modelled by
explicit stream arguments.
-/

/-- A named torch parameter tensor, flattened to a list of scalars, together
with its trainability flag (torch `requires_grad`). -/
structure TParam (α : Type) where
  name : String
  value : List α
  requires_grad : Bool
deriving DecidableEq, Repr

/-- All entries of a tensor set to zero, keeping the shape: models the
in-place assignment `param[:] = 0`. -/
def zeroAll {α : Type} [Zero α] (v : List α) : List α := v.map (fun _ => 0)

/-- Python `str.startswith`, modelled over the character lists of the two
strings. -/
def startswith (s pre : String) : Bool :=
  List.isPrefixOf pre.data s.data

/-- Source `_freeze_bias` (models.py lines 14-18): for every named parameter
of the LSTM whose name starts with "bias", clear `requires_grad` and zero
its value in place. -/
def _freeze_bias {α : Type} [Zero α] (ps : List (TParam α)) : List (TParam α) :=
  ps.map fun p =>
    if startswith p.name "bias" then
      { p with requires_grad := false, value := zeroAll p.value }
    else p

/-- The first `n` values of an initialization stream, as a flat tensor. -/
def mkVec {α : Type} (stream : ℕ → α) (n : ℕ) : List α := (List.range n).map stream

/-- Named parameters of torch `nn.LSTM(inputSize, hidden, bidirectional=True,
batch_first=True)`: input-hidden and hidden-hidden weights and the two
additive biases, for the forward and reverse directions, all with
`requires_grad = true` (torch default), values drawn from an arbitrary
initialization stream. Weight shapes are flattened (4·hidden×inputSize,
4·hidden×hidden); biases have length 4·hidden. -/
def nnLSTM {α : Type} (stream : ℕ → α) (inputSize hidden : ℕ) : List (TParam α) :=
  [ ⟨"weight_ih_l0", mkVec stream (4 * hidden * inputSize), true⟩,
    ⟨"weight_hh_l0", mkVec stream (4 * hidden * hidden), true⟩,
    ⟨"bias_ih_l0", mkVec stream (4 * hidden), true⟩,
    ⟨"bias_hh_l0", mkVec stream (4 * hidden), true⟩,
    ⟨"weight_ih_l0_reverse", mkVec stream (4 * hidden * inputSize), true⟩,
    ⟨"weight_hh_l0_reverse", mkVec stream (4 * hidden * hidden), true⟩,
    ⟨"bias_ih_l0_reverse", mkVec stream (4 * hidden), true⟩,
    ⟨"bias_hh_l0_reverse", mkVec stream (4 * hidden), true⟩ ]

/-- One optimizer step: parameters with `requires_grad = false` receive no
gradient and are left untouched (torch optimizer semantics); trainable
parameters are updated by an arbitrary update function of their name and
current value. -/
def optimizerStep {α : Type} (upd : String → List α → List α)
    (ps : List (TParam α)) : List (TParam α) :=
  ps.map fun p => if p.requires_grad then { p with value := upd p.name p.value } else p

/-- Any finite sequence of training (gradient-update) steps. -/
def applySteps {α : Type} (upds : List (String → List α → List α))
    (ps : List (TParam α)) : List (TParam α) :=
  upds.foldl (fun acc u => optimizerStep u acc) ps

/-- A weight matrix filled from an initialization stream. -/
def mkMat {α : Type} (stream : ℕ → α) (rows cols : ℕ) : List (List α) :=
  (List.range rows).map fun i => (List.range cols).map fun j => stream (i * cols + j)

/-- The network state built by `Network.__init__` (models.py lines 30-35):
embedding table 256×32, two bidirectional LSTMs (32→128 and 256→64, biases
frozen to zero), and the linear head 128→2 (weight 2×128, bias length 2). -/
structure Network (α : Type) where
  embedding : List (List α)
  lstm1 : List (TParam α)
  lstm2 : List (TParam α)
  outW : List (List α)
  outB : List α

/-- Source `Network.__init__` layer construction (models.py lines 30-35):
builds the layers and applies `_freeze_bias` to both LSTMs. -/
def Network.build {α : Type} [Zero α] (stream : ℕ → α) : Network α :=
  { embedding := mkMat stream 256 32
    lstm1 := _freeze_bias (nnLSTM stream 32 128)
    lstm2 := _freeze_bias (nnLSTM stream 256 64)
    outW := mkMat stream 2 128
    outB := mkVec stream 2 }

/-- Every additive bias parameter in the list is zero and non-trainable. -/
def BiasesFrozen {α : Type} [Zero α] (ps : List (TParam α)) : Prop :=
  ∀ p ∈ ps, startswith p.name "bias" = true →
    p.requires_grad = false ∧ ∀ x ∈ p.value, x = (0 : α)

theorem freeze_bias_establishes {α : Type} [Zero α] (ps : List (TParam α)) :
    BiasesFrozen (_freeze_bias ps) := by
  intro p hp hname
  simp only [_freeze_bias, List.mem_map] at hp
  obtain ⟨q, -, rfl⟩ := hp
  by_cases h : startswith q.name "bias" = true
  · rw [if_pos h]
    refine ⟨rfl, ?_⟩
    intro x hx
    simp only [zeroAll, List.mem_map] at hx
    obtain ⟨a, -, ha⟩ := hx
    exact ha.symm
  · rw [if_neg h] at hname
    exact absurd hname h

theorem optimizerStep_preserves {α : Type} [Zero α]
    (u : String → List α → List α) (ps : List (TParam α))
    (h : BiasesFrozen ps) : BiasesFrozen (optimizerStep u ps) := by
  intro p hp hname
  simp only [optimizerStep, List.mem_map] at hp
  obtain ⟨q, hq, rfl⟩ := hp
  by_cases hg : q.requires_grad = true
  · rw [if_pos hg] at hname ⊢
    have h2 := h q hq hname
    rw [h2.1] at hg
    exact absurd hg (by simp)
  · rw [if_neg hg] at hname ⊢
    exact h q hq hname

theorem applySteps_preserves {α : Type} [Zero α]
    (upds : List (String → List α → List α)) (ps : List (TParam α))
    (h : BiasesFrozen ps) : BiasesFrozen (applySteps upds ps) := by
  induction upds generalizing ps with
  | nil => exact h
  | cons u rest ih =>
      exact ih (optimizerStep u ps) (optimizerStep_preserves u ps h)

/-- Claim C2: both bidirectional LSTM layers are built with `_freeze_bias`
applied (models.py lines 31-34), and after `_freeze_bias` every parameter
whose name starts with "bias" is non-trainable with all entries zero, and it
stays so after any finite sequence of optimizer (gradient-update) steps,
which only touch parameters with `requires_grad = true`. -/
theorem c2_bias_params_zero_forever :
    (∀ (α : Type) [Zero α] (stream : ℕ → α),
      (Network.build stream).lstm1 = _freeze_bias (nnLSTM stream 32 128) ∧
      (Network.build stream).lstm2 = _freeze_bias (nnLSTM stream 256 64)) ∧
    (∀ (α : Type) [Zero α] (ps : List (TParam α))
      (upds : List (String → List α → List α)),
      BiasesFrozen (applySteps upds (_freeze_bias ps))) := by
  constructor
  · intro α _ stream
    exact ⟨rfl, rfl⟩
  · intro α _ ps upds
    exact applySteps_preserves upds (_freeze_bias ps) (freeze_bias_establishes ps)

/-- Concrete witness for C2: a one-parameter LSTM registry with a bias
initialized to 3 and one training step adding 1 everywhere; the bias ends
frozen at zero. -/
theorem c2_bias_params_zero_forever_witness :
    (⟨"bias_t", ([0] : List ℚ), false⟩ : TParam ℚ).requires_grad = false ∧
      ∀ x ∈ (⟨"bias_t", ([0] : List ℚ), false⟩ : TParam ℚ).value, x = (0 : ℚ) :=
  c2_bias_params_zero_forever.2 ℚ [⟨"bias_t", [3], true⟩]
    [fun _ v => v.map (fun x => x + 1)] ⟨"bias_t", [0], false⟩
    (by decide) (by decide)

/-- Source `Network.__init__` tail (models.py lines 26-37): after building
the layers it runs `assert self.keras_outputs_are_close()` and only then
returns. `keras_outputs_are_close` is defined outside src/ (the spec calls
it the numerical-closeness check against the reference Keras-trained model),
so it is modelled as an arbitrary boolean predicate `close` of the freshly
built network; a failing assert raises and exposes no network value. -/
def Network.init {α : Type} [Zero α] (close : Network α → Bool)
    (stream : ℕ → α) : Except String (Network α) :=
  let net := Network.build stream
  if close net then Except.ok net else Except.error "AssertionError"

/-- Claim C8: construction returns the built network exactly when the
reference-closeness check passes, and raises (returning an error value that
carries no network) exactly when it fails. -/
theorem c8_init_asserts_closeness (α : Type) [Zero α]
    (close : Network α → Bool) (stream : ℕ → α) :
    (Network.init close stream = Except.ok (Network.build stream) ↔
      close (Network.build stream) = true) ∧
    (Network.init close stream = Except.error "AssertionError" ↔
      close (Network.build stream) = false) := by
  unfold Network.init
  cases h : close (Network.build stream) <;> simp [h]

/-- Dot product of a weight-matrix row with an input vector. -/
def dotV {α : Type} [Mul α] [Add α] [Zero α] (a b : List α) : α :=
  (List.zipWith (fun x y => x * y) a b).sum

/-- Matrix-vector product, one output entry per matrix row. -/
def matvec {α : Type} [Mul α] [Add α] [Zero α]
    (m : List (List α)) (v : List α) : List α :=
  m.map fun row => dotV row v

/-- Elementwise vector sum. -/
def addV {α : Type} [Add α] (a b : List α) : List α :=
  List.zipWith (fun x y => x + y) a b

/-- Elementwise vector product. -/
def mulV {α : Type} [Mul α] (a b : List α) : List α :=
  List.zipWith (fun x y => x * y) a b

/-- The flat tensor registered under a given name (torch parameter lookup). -/
def getParam {α : Type} (ps : List (TParam α)) (n : String) : List α :=
  ((ps.find? fun p => p.name == n).map TParam.value).getD []

/-- Reshape a flat tensor into a rows×cols matrix. -/
def unflatten {α : Type} (rows cols : ℕ) (v : List α) : List (List α) :=
  (List.range rows).map fun i => (v.drop (i * cols)).take cols

/-- The four weight tensors of one direction of a torch LSTM. -/
structure DirW (α : Type) where
  w_ih : List (List α)
  w_hh : List (List α)
  b_ih : List α
  b_hh : List α

/-- Weights of one direction of a bidirectional LSTM, recovered from the
named-parameter registry ("" selects the forward direction, "_reverse" the
backward one), in torch layout: `weight_ih` is (4·hidden)×inputSize and
`weight_hh` is (4·hidden)×hidden. -/
def lstmDir {α : Type} (ps : List (TParam α)) (sfx : String)
    (inputSize hidden : ℕ) : DirW α :=
  { w_ih := unflatten (4 * hidden) inputSize (getParam ps ("weight_ih_l0" ++ sfx))
    w_hh := unflatten (4 * hidden) hidden (getParam ps ("weight_hh_l0" ++ sfx))
    b_ih := getParam ps ("bias_ih_l0" ++ sfx)
    b_hh := getParam ps ("bias_hh_l0" ++ sfx) }

/-- Slice `k` (of 4) of the stacked gate pre-activations, each of width
`hidden` (torch gate order: input, forget, cell, output). -/
def gateSlice {α : Type} (z : List α) (hidden k : ℕ) : List α :=
  (z.drop (k * hidden)).take hidden

/-- One torch LSTM cell step: gate pre-activations from the input and the
previous hidden state plus both biases, then the standard cell and hidden
state updates; `sg` and `th` are the sigmoid and tanh activations. -/
def lstmCell {α : Type} [Mul α] [Add α] [Zero α] (sg th : α → α)
    (w : DirW α) (hidden : ℕ) (x h c : List α) : List α × List α :=
  let z := addV (addV (matvec w.w_ih x) w.b_ih) (addV (matvec w.w_hh h) w.b_hh)
  let i := (gateSlice z hidden 0).map sg
  let f := (gateSlice z hidden 1).map sg
  let g := (gateSlice z hidden 2).map th
  let o := (gateSlice z hidden 3).map sg
  let c2 := addV (mulV f c) (mulV i g)
  let h2 := mulV o (c2.map th)
  (h2, c2)

/-- Run the LSTM cell along a sequence, emitting the hidden state at each
position. -/
def lstmSeq {α : Type} [Mul α] [Add α] [Zero α] (sg th : α → α)
    (w : DirW α) (hidden : ℕ) : List α → List α → List (List α) → List (List α)
  | _, _, [] => []
  | h, c, x :: xs =>
    let hc := lstmCell sg th w hidden x h c
    hc.1 :: lstmSeq sg th w hidden hc.1 hc.2 xs

/-- Torch bidirectional LSTM layer on one sequence (batch_first): run the
forward direction on the sequence and the reverse direction on the reversed
sequence, both from zero initial state, and concatenate the two hidden
states at each position. -/
def biLstm {α : Type} [Mul α] [Add α] [Zero α] (sg th : α → α)
    (ps : List (TParam α)) (inputSize hidden : ℕ)
    (xs : List (List α)) : List (List α) :=
  let wf := lstmDir ps "" inputSize hidden
  let wb := lstmDir ps "_reverse" inputSize hidden
  let h0 : List α := List.replicate hidden 0
  let fwd := lstmSeq sg th wf hidden h0 h0 xs
  let bwd := (lstmSeq sg th wb hidden h0 h0 xs.reverse).reverse
  List.zipWith (fun a b => a ++ b) fwd bwd

/-- Embedding lookup: row `b` of the embedding table (the `x.long()` cast
makes the byte an index). -/
def embedLookup {α : Type} (table : List (List α)) (b : ℕ) : List α :=
  table.getD b []

/-- Source `Network.forward` (models.py lines 49-54): embedding lookup, the
two bidirectional LSTM layers in sequence, then the linear head, per batch
element; a pure function of the input and the parameters. Activations
(torch sigmoid and tanh) are explicit arguments. -/
def Network.forward {α : Type} [Mul α] [Add α] [Zero α] (sg th : α → α)
    (net : Network α) (x : List (List ℕ)) : List (List (List α)) :=
  x.map fun seq =>
    let h := seq.map (embedLookup net.embedding)
    let h1 := biLstm sg th net.lstm1 32 128 h
    let h2 := biLstm sg th net.lstm2 256 64 h1
    h2.map fun v => addV (matvec net.outW v) net.outB

/-- The logistic sigmoid over the reals. -/
noncomputable def sigmoidR (x : ℝ) : ℝ := 1 / (1 + Real.exp (-x))

/-- The real-number forward pass: `Network.forward` with the torch sigmoid
and tanh activations. -/
noncomputable def forwardR (net : Network ℝ) (x : List (List ℕ)) :
    List (List (List ℝ)) :=
  Network.forward sigmoidR Real.tanh net x

theorem lstmSeq_length {α : Type} [Mul α] [Add α] [Zero α] (sg th : α → α)
    (w : DirW α) (hidden : ℕ) :
    ∀ (xs : List (List α)) (h c : List α),
      (lstmSeq sg th w hidden h c xs).length = xs.length := by
  intro xs
  induction xs with
  | nil => intro h c; rfl
  | cons x xs ih => intro h c; simp [lstmSeq, ih]

theorem biLstm_length {α : Type} [Mul α] [Add α] [Zero α] (sg th : α → α)
    (ps : List (TParam α)) (inputSize hidden : ℕ) (xs : List (List α)) :
    (biLstm sg th ps inputSize hidden xs).length = xs.length := by
  simp [biLstm, List.length_zipWith, lstmSeq_length]

/-- Claim C9: for every valid byte batch (entries below 256), the forward
pass of a freshly built network returns one row per batch element, one
vector per input position, each of length 2; and the output is a
deterministic function of the parameters and the input. -/
theorem c9_forward_shape_deterministic :
    (∀ (stream : ℕ → ℝ) (x : List (List ℕ)),
      (∀ s ∈ x, ∀ b ∈ s, b < 256) →
      List.Forall₂ (fun o s => o.length = s.length ∧ ∀ v ∈ o, v.length = 2)
        (forwardR (Network.build stream) x) x) ∧
    (∀ (stream : ℕ → ℝ) (x y : List (List ℕ)),
      x = y → forwardR (Network.build stream) x = forwardR (Network.build stream) y) := by
  constructor
  · intro stream x _
    unfold forwardR Network.forward
    rw [List.forall₂_map_left_iff, List.forall₂_same]
    intro seq _
    constructor
    · simp [List.length_map, biLstm_length]
    · intro v hv
      simp only [List.mem_map] at hv
      obtain ⟨u, -, rfl⟩ := hv
      simp [addV, matvec, List.length_zipWith, List.length_map,
        Network.build, mkMat, mkVec]
  · intro stream x y hxy
    rw [hxy]

/-- Concrete witness for C9: the one-element batch `[[7]]`. -/
theorem c9_forward_shape_witness :
    List.Forall₂ (fun o s => o.length = s.length ∧ ∀ v ∈ o, v.length = 2)
      (forwardR (Network.build fun _ => (0 : ℝ)) [[7]]) [[7]] :=
  c9_forward_shape_deterministic.1 (fun _ => 0) [[7]] (by decide)

/-- The logit-space binary cross-entropy of torch
`binary_cross_entropy_with_logits` with positive-class weight `p`, before
the elementwise `weight` factor. -/
noncomputable def bceLogits (p x y : ℝ) : ℝ :=
  -(p * y * Real.log (sigmoidR x) + (1 - y) * Real.log (1 - sigmoidR x))

/-- One element of torch `binary_cross_entropy_with_logits` with
`pos_weight = p` and elementwise `weight = w`. -/
noncomputable def bceWithLogitsElem (p w x y : ℝ) : ℝ := w * bceLogits p x y

/-- The fixed channel-0 weight from `torch.tensor([2.0, 0.1])`
(models.py line 58). -/
def channelWeight0 : ℝ := 2

/-- The fixed channel-1 weight from `torch.tensor([2.0, 0.1])`
(models.py line 58). -/
noncomputable def channelWeight1 : ℝ := 1 / 10

/-- The fixed `pos_weight=torch.tensor(10.0)` (models.py line 61). -/
def posWeight : ℝ := 10

/-- All per-element loss terms of a batch: positions are flattened over
batch and length, each carrying its two label channels, weighted by the
per-channel weights. -/
noncomputable def lossTerms : List (ℝ × ℝ) → List (ℝ × ℝ) → List ℝ
  | a :: as, b :: bs =>
    bceWithLogitsElem posWeight channelWeight0 a.1 b.1 ::
      bceWithLogitsElem posWeight channelWeight1 a.2 b.2 :: lossTerms as bs
  | _, _ => []

/-- Source `Network.loss` (models.py lines 56-62):
`F.binary_cross_entropy_with_logits(y_hat, y.float(), pos_weight=10.0,
weight=[2.0, 0.1])` with the default mean reduction over all elements. -/
noncomputable def Network.loss (y_hat y : List (ℝ × ℝ)) : ℝ :=
  (lossTerms y_hat y).sum / ((lossTerms y_hat y).length : ℝ)

/-- The spec's reading of the loss: the scalar mean over all positions of
binary cross-entropy with logits, positive terms weighted by 10.0, with the
per-channel factors 2.0 and 0.1 applied on top. -/
noncomputable def specWeightedMeanBce (y_hat y : List (ℝ × ℝ)) : ℝ :=
  ((List.zip y_hat y).map fun ab =>
      channelWeight0 * bceLogits posWeight ab.1.1 ab.2.1 +
        channelWeight1 * bceLogits posWeight ab.1.2 ab.2.2).sum /
    (2 * (y_hat.length : ℝ))

theorem sigmoidR_pos (x : ℝ) : 0 < sigmoidR x := by
  unfold sigmoidR
  positivity

theorem sigmoidR_lt_one (x : ℝ) : sigmoidR x < 1 := by
  unfold sigmoidR
  rw [div_lt_one (by positivity)]
  linarith [Real.exp_pos (-x)]

theorem log_sigmoidR_nonpos (x : ℝ) : Real.log (sigmoidR x) ≤ 0 :=
  Real.log_nonpos (le_of_lt (sigmoidR_pos x)) (le_of_lt (sigmoidR_lt_one x))

theorem log_one_sub_sigmoidR_nonpos (x : ℝ) :
    Real.log (1 - sigmoidR x) ≤ 0 :=
  Real.log_nonpos (by linarith [sigmoidR_lt_one x])
    (by linarith [sigmoidR_pos x])

theorem bceWithLogitsElem_nonneg (p w x y : ℝ) (hp : 0 ≤ p) (hw : 0 ≤ w)
    (hy : y = 0 ∨ y = 1) : 0 ≤ bceWithLogitsElem p w x y := by
  have h1 := log_sigmoidR_nonpos x
  have h2 := log_one_sub_sigmoidR_nonpos x
  unfold bceWithLogitsElem bceLogits
  rcases hy with rfl | rfl
  · have : 0 ≤ w * -Real.log (1 - sigmoidR x) :=
      mul_nonneg hw (neg_nonneg.mpr h2)
    nlinarith
  · have : 0 ≤ (w * p) * -Real.log (sigmoidR x) :=
      mul_nonneg (mul_nonneg hw hp) (neg_nonneg.mpr h1)
    nlinarith

/-- Labels are binary: each channel of every position is 0 or 1. -/
def BinaryLabels (y : List (ℝ × ℝ)) : Prop :=
  ∀ q ∈ y, (q.1 = 0 ∨ q.1 = 1) ∧ (q.2 = 0 ∨ q.2 = 1)

theorem lossTerms_nonneg : ∀ (yh y : List (ℝ × ℝ)), BinaryLabels y →
    ∀ t ∈ lossTerms yh y, 0 ≤ t
  | [], _, _ => by simp [lossTerms]
  | _ :: _, [], _ => by simp [lossTerms]
  | a :: as, b :: bs, hb => by
    intro t ht
    simp only [lossTerms, List.mem_cons] at ht
    rcases ht with rfl | rfl | ht
    · exact bceWithLogitsElem_nonneg _ _ _ _ (by norm_num [posWeight])
        (by norm_num [channelWeight0]) (hb b (by simp)).1
    · exact bceWithLogitsElem_nonneg _ _ _ _ (by norm_num [posWeight])
        (by norm_num [channelWeight1]) (hb b (by simp)).2
    · exact lossTerms_nonneg as bs (fun q hq => hb q (by simp [hq])) t ht

theorem lossTerms_sum_eq : ∀ yh y : List (ℝ × ℝ),
    (lossTerms yh y).sum =
      ((List.zip yh y).map fun ab =>
        channelWeight0 * bceLogits posWeight ab.1.1 ab.2.1 +
          channelWeight1 * bceLogits posWeight ab.1.2 ab.2.2).sum
  | [], _ => by simp [lossTerms]
  | _ :: _, [] => by simp [lossTerms]
  | a :: as, b :: bs => by
    simp only [lossTerms, List.zip_cons_cons, List.map_cons, List.sum_cons,
      lossTerms_sum_eq as bs, bceWithLogitsElem]
    ring

theorem lossTerms_length : ∀ yh y : List (ℝ × ℝ),
    (lossTerms yh y).length = 2 * min yh.length y.length
  | [], _ => by simp [lossTerms]
  | _ :: _, [] => by simp [lossTerms]
  | a :: as, b :: bs => by
    simp only [lossTerms, List.length_cons, lossTerms_length as bs]
    omega

/-- Claim C3: for equal-shape logits and labels the loss is exactly the
mean over all positions of binary cross-entropy with logits, with
`pos_weight` 10.0 and the per-channel weights [2.0, 0.1] on top; it is
nonnegative for binary labels; and for any logit and label the channel-0
term is 20 times the identical-magnitude channel-1 term (ratio 2.0/0.1). -/
theorem c3_loss_weighted_bce :
    (∀ y_hat y : List (ℝ × ℝ), y_hat.length = y.length →
      Network.loss y_hat y = specWeightedMeanBce y_hat y) ∧
    (∀ y_hat y : List (ℝ × ℝ), BinaryLabels y → 0 ≤ Network.loss y_hat y) ∧
    (∀ x t : ℝ, bceWithLogitsElem posWeight channelWeight0 x t =
      20 * bceWithLogitsElem posWeight channelWeight1 x t) := by
  refine ⟨?_, ?_, ?_⟩
  · intro y_hat y hlen
    unfold Network.loss specWeightedMeanBce
    rw [lossTerms_sum_eq, lossTerms_length, hlen, Nat.min_self]
    push_cast
    ring
  · intro y_hat y hy
    exact div_nonneg (List.sum_nonneg (lossTerms_nonneg y_hat y hy))
      (Nat.cast_nonneg _)
  · intro x t
    unfold bceWithLogitsElem channelWeight0 channelWeight1
    ring

/-- Concrete witness for C3: a single position with both channels at logit 0
and label 0. -/
theorem c3_loss_weighted_bce_witness :
    Network.loss [((0 : ℝ), (0 : ℝ))] [((0 : ℝ), (0 : ℝ))] =
        specWeightedMeanBce [((0 : ℝ), (0 : ℝ))] [((0 : ℝ), (0 : ℝ))] ∧
      0 ≤ Network.loss [((0 : ℝ), (0 : ℝ))] [((0 : ℝ), (0 : ℝ))] :=
  ⟨c3_loss_weighted_bce.1 _ _ (by simp),
    c3_loss_weighted_bce.2.1 _ _ (by intro q hq; simp at hq; simp [hq])⟩

/-- Sum of a boolean tensor: the number of `true` entries. -/
def countTrue (l : List Bool) : ℕ := l.count true

/-- Source `Network.validation_step` count computation (models.py lines
77-87): predictions are `y_hat.view((-1, n_labels)) > threshold` with
`threshold = 0.5` applied to the raw logits (no sigmoid), and the per-channel
counts are sums of the elementwise boolean conjunctions with the flattened
labels. Positions are already flattened over batch and length. -/
def Network.validation_step (y_hat y : List (ℚ × ℚ)) :
    (ℕ × ℕ × ℕ) × (ℕ × ℕ × ℕ) :=
  let threshold : ℚ := 1 / 2
  let pred := y_hat.map fun p => (decide (threshold < p.1), decide (threshold < p.2))
  let tp0 := countTrue (List.zipWith (fun pr l => pr.1 && decide (l.1 = 1)) pred y)
  let fp0 := countTrue (List.zipWith (fun pr l => pr.1 && decide (l.1 = 0)) pred y)
  let fn0 := countTrue (List.zipWith (fun pr l => (!pr.1) && decide (l.1 = 1)) pred y)
  let tp1 := countTrue (List.zipWith (fun pr l => pr.2 && decide (l.2 = 1)) pred y)
  let fp1 := countTrue (List.zipWith (fun pr l => pr.2 && decide (l.2 = 0)) pred y)
  let fn1 := countTrue (List.zipWith (fun pr l => (!pr.2) && decide (l.2 = 1)) pred y)
  ((tp0, fp0, fn0), (tp1, fp1, fn1))

/-- The claim's TP for channel 0: the number of positions where the raw
channel-0 logit exceeds 0.5 and the channel-0 label is 1. -/
def specTP0 (y_hat y : List (ℚ × ℚ)) : ℕ :=
  (List.zip y_hat y).countP fun ab => decide ((1 : ℚ) / 2 < ab.1.1) && decide (ab.2.1 = 1)

/-- The claim's FP for channel 0: prediction 1, label 0. -/
def specFP0 (y_hat y : List (ℚ × ℚ)) : ℕ :=
  (List.zip y_hat y).countP fun ab => decide ((1 : ℚ) / 2 < ab.1.1) && decide (ab.2.1 = 0)

/-- The claim's FN for channel 0: prediction 0, label 1. -/
def specFN0 (y_hat y : List (ℚ × ℚ)) : ℕ :=
  (List.zip y_hat y).countP fun ab => !decide ((1 : ℚ) / 2 < ab.1.1) && decide (ab.2.1 = 1)

/-- The claim's TP for channel 1. -/
def specTP1 (y_hat y : List (ℚ × ℚ)) : ℕ :=
  (List.zip y_hat y).countP fun ab => decide ((1 : ℚ) / 2 < ab.1.2) && decide (ab.2.2 = 1)

/-- The claim's FP for channel 1. -/
def specFP1 (y_hat y : List (ℚ × ℚ)) : ℕ :=
  (List.zip y_hat y).countP fun ab => decide ((1 : ℚ) / 2 < ab.1.2) && decide (ab.2.2 = 0)

/-- The claim's FN for channel 1. -/
def specFN1 (y_hat y : List (ℚ × ℚ)) : ℕ :=
  (List.zip y_hat y).countP fun ab => !decide ((1 : ℚ) / 2 < ab.1.2) && decide (ab.2.2 = 1)

theorem countTrue_zipWith_pred {A B : Type} (g : A → Bool × Bool)
    (f : Bool × Bool → B → Bool) :
    ∀ (xs : List A) (ys : List B),
      countTrue (List.zipWith f (xs.map g) ys) =
        (List.zip xs ys).countP fun ab => f (g ab.1) ab.2
  | [], _ => by simp [countTrue]
  | _ :: _, [] => by simp [countTrue]
  | x :: xs, y :: ys => by
    have ih := countTrue_zipWith_pred g f xs ys
    simp only [countTrue] at ih ⊢
    simp [List.count_cons, List.countP_cons, ih]

/-- Claim C4: in every validation step, predictions come from comparing the
raw logits directly against the threshold 0.5 (no sigmoid), and the
per-channel counts are TP = #(pred=1 ∧ label=1), FP = #(pred=1 ∧ label=0),
FN = #(pred=0 ∧ label=1) over the flattened positions. -/
theorem c4_validation_step_counts (y_hat y : List (ℚ × ℚ)) :
    Network.validation_step y_hat y =
      ((specTP0 y_hat y, specFP0 y_hat y, specFN0 y_hat y),
        (specTP1 y_hat y, specFP1 y_hat y, specFN1 y_hat y)) := by
  unfold Network.validation_step specTP0 specFP0 specFN0 specTP1 specFP1 specFN1
  simp only [countTrue_zipWith_pred]

/-- The epsilon `1e-9` of models.py lines 95-98, exactly. -/
def eps : ℚ := 1 / 1000000000

/-- Source precision: `tp / (tp + fp + 1e-9)` on integer counts. -/
def precisionQ (tp fp : ℕ) : ℚ := (tp : ℚ) / ((tp : ℚ) + (fp : ℚ) + eps)

/-- Source recall: `tp / (tp + fn + 1e-9)` on integer counts. -/
def recallQ (tp fn : ℕ) : ℚ := (tp : ℚ) / ((tp : ℚ) + (fn : ℚ) + eps)

/-- Source F1: `2 * (precision * recall) / (precision + recall + 1e-9)`. -/
def f1Q (tp fp fn : ℕ) : ℚ :=
  2 * (precisionQ tp fp * recallQ tp fn) /
    (precisionQ tp fp + recallQ tp fn + eps)

/-- Componentwise sum of (tp, fp, fn) count triples: models
`torch.stack([...]).sum(dim=0)` across batches. -/
def addCounts (a b : ℕ × ℕ × ℕ) : ℕ × ℕ × ℕ :=
  (a.1 + b.1, a.2.1 + b.2.1, a.2.2 + b.2.2)

/-- Sum of per-batch count triples across a validation epoch. -/
def sumCounts (l : List (ℕ × ℕ × ℕ)) : ℕ × ℕ × ℕ :=
  l.foldr addCounts (0, 0, 0)

/-- The (precision, recall, f1) triple computed from summed counts. -/
def metricsOf (c : ℕ × ℕ × ℕ) : ℚ × ℚ × ℚ :=
  (precisionQ c.1 c.2.1, recallQ c.1 c.2.2, f1Q c.1 c.2.1 c.2.2)

/-- Source `Network.validation_epoch_end` (models.py lines 89-98): per-batch
counts are summed across all batches (stack + sum over the batch dimension,
kept per channel) and the three metrics are computed per channel from the
summed counts. -/
def Network.validation_epoch_end
    (outputs : List ((ℕ × ℕ × ℕ) × (ℕ × ℕ × ℕ))) :
    (ℚ × ℚ × ℚ) × (ℚ × ℚ × ℚ) :=
  (metricsOf (sumCounts (outputs.map Prod.fst)),
    metricsOf (sumCounts (outputs.map Prod.snd)))

theorem sumCounts_components : ∀ l : List (ℕ × ℕ × ℕ),
    sumCounts l = ((l.map fun c => c.1).sum, (l.map fun c => c.2.1).sum,
      (l.map fun c => c.2.2).sum)
  | [] => rfl
  | c :: l => by
    have ih := sumCounts_components l
    simp only [sumCounts, List.foldr_cons] at ih ⊢
    rw [ih]
    simp [addCounts, List.map_cons, List.sum_cons]

theorem eps_pos : (0 : ℚ) < eps := by norm_num [eps]

theorem precisionQ_mem_unit (tp fp : ℕ) :
    0 ≤ precisionQ tp fp ∧ precisionQ tp fp ≤ 1 := by
  have h0 : (0 : ℚ) ≤ (tp : ℚ) := Nat.cast_nonneg tp
  have h1 : (0 : ℚ) ≤ (fp : ℚ) := Nat.cast_nonneg fp
  have hd : (0 : ℚ) < (tp : ℚ) + (fp : ℚ) + eps := by
    have := eps_pos; linarith
  unfold precisionQ
  constructor
  · exact div_nonneg h0 (le_of_lt hd)
  · rw [div_le_one hd]
    have := eps_pos; linarith

theorem recallQ_mem_unit (tp fn : ℕ) :
    0 ≤ recallQ tp fn ∧ recallQ tp fn ≤ 1 :=
  precisionQ_mem_unit tp fn

theorem f1Q_mem_unit (tp fp fn : ℕ) : 0 ≤ f1Q tp fp fn ∧ f1Q tp fp fn ≤ 1 := by
  obtain ⟨hp0, hp1⟩ := precisionQ_mem_unit tp fp
  obtain ⟨hr0, hr1⟩ := recallQ_mem_unit tp fn
  have he := eps_pos
  have hd : (0 : ℚ) < precisionQ tp fp + recallQ tp fn + eps := by linarith
  unfold f1Q
  constructor
  · exact div_nonneg (by nlinarith) (le_of_lt hd)
  · rw [div_le_one hd]
    nlinarith [mul_nonneg hp0 (sub_nonneg.mpr hr1),
      mul_nonneg hr0 (sub_nonneg.mpr hp1)]

/-- Claim C5: at epoch end the counts are summed componentwise across all
batches and the metrics are computed from the sums with ε = 1e-9;
precision, recall and F1 always lie in [0, 1]; F1 is 0 whenever TP = 0 with
FP + FN > 0; and at TP = FP = FN = 0 all three metrics are the defined
value 0 (no division by zero occurs, thanks to ε). -/
theorem c5_epoch_end_metrics :
    (∀ outputs : List ((ℕ × ℕ × ℕ) × (ℕ × ℕ × ℕ)),
      Network.validation_epoch_end outputs =
        (metricsOf ((outputs.map fun o => o.1.1).sum,
            (outputs.map fun o => o.1.2.1).sum,
            (outputs.map fun o => o.1.2.2).sum),
          metricsOf ((outputs.map fun o => o.2.1).sum,
            (outputs.map fun o => o.2.2.1).sum,
            (outputs.map fun o => o.2.2.2).sum))) ∧
    (∀ tp fp fn : ℕ,
      (0 ≤ precisionQ tp fp ∧ precisionQ tp fp ≤ 1) ∧
      (0 ≤ recallQ tp fn ∧ recallQ tp fn ≤ 1) ∧
      (0 ≤ f1Q tp fp fn ∧ f1Q tp fp fn ≤ 1)) ∧
    (∀ tp fp fn : ℕ, tp = 0 → 0 < fp + fn → f1Q tp fp fn = 0) ∧
    (precisionQ 0 0 = 0 ∧ recallQ 0 0 = 0 ∧ f1Q 0 0 0 = 0) := by
  refine ⟨?_, ?_, ?_, ?_⟩
  · intro outputs
    unfold Network.validation_epoch_end
    rw [sumCounts_components, sumCounts_components]
    simp [List.map_map, Function.comp_def]
  · intro tp fp fn
    exact ⟨precisionQ_mem_unit tp fp, recallQ_mem_unit tp fn,
      f1Q_mem_unit tp fp fn⟩
  · intro tp fp fn htp _
    subst htp
    simp [f1Q, precisionQ]
  · refine ⟨?_, ?_, ?_⟩ <;> simp [precisionQ, recallQ, f1Q]

/-- Concrete witness for C5: with TP = 0, FP = 1, FN = 0 the F1 score is 0. -/
theorem c5_epoch_end_metrics_witness : f1Q 0 1 0 = 0 :=
  c5_epoch_end_metrics.2.2.1 0 1 0 rfl (by decide)

/-- The batch-collation function handed to the loaders; the module always
passes `SplitDataset.collate_fn`. -/
inductive CollateFn
  | splitDatasetCollate
deriving DecidableEq, Repr

/-- The configuration recorded by `torch.utils.data.DataLoader`. -/
structure DataLoaderCfg where
  batch_size : ℕ
  shuffle : Bool
  num_workers : ℕ
  collate : CollateFn
deriving DecidableEq, Repr

/-- A data loader: the dataset-index subset it serves and its
configuration. -/
structure DataLoader where
  indices : List ℕ
  cfg : DataLoaderCfg
deriving DecidableEq, Repr

/-- Model of numpy `np.random.choice(np.arange(n), k)`: k draws with
replacement from range(n) (numpy default `replace=True`, uniform); the
random draws come from an explicit stream, one independent draw per
position, reduced mod n. -/
def np_random_choice (rng : ℕ → ℕ) (n k : ℕ) : List ℕ :=
  (List.range k).map fun i => rng i % n

/-- Source `Network.train_dataloader` (models.py lines 113-128): each call
draws 30,000 random indices from the training dataset (one epoch) and wraps
the subset in a loader with batch size 128, shuffling enabled, 6 worker
processes and `SplitDataset.collate_fn`. The drawing stream is not seeded,
so it is an explicit argument. -/
def Network.train_dataloader (rng : ℕ → ℕ) (trainLen : ℕ) : DataLoader :=
  let epoch_indices := np_random_choice rng trainLen 30000
  { indices := epoch_indices
    cfg := { batch_size := 128, shuffle := true, num_workers := 6,
             collate := CollateFn.splitDatasetCollate } }

theorem np_random_choice_mem (rng : ℕ → ℕ) (n k : ℕ) (hn : 0 < n) :
    ∀ i ∈ np_random_choice rng n k, i < n := by
  intro i hi
  simp only [np_random_choice, List.mem_map, List.mem_range] at hi
  obtain ⟨j, -, rfl⟩ := hi
  exact Nat.mod_lt _ hn

theorem train_dataloader_indices (rng : ℕ → ℕ) (n : ℕ) :
    (Network.train_dataloader rng n).indices = np_random_choice rng n 30000 := by
  simp only [Network.train_dataloader]

/-- Claim C6: every call of the training data-loader constructor draws
exactly 30,000 indices with replacement, each strictly below the
training-dataset length, and configures the loader with batch size 128,
shuffling, multiple workers and the task collation function. -/
theorem c6_train_loader_samples (rng : ℕ → ℕ) (n : ℕ) (hn : 0 < n) :
    (Network.train_dataloader rng n).indices.length = 30000 ∧
    (∀ i ∈ (Network.train_dataloader rng n).indices, i < n) ∧
    (Network.train_dataloader rng n).cfg =
      { batch_size := 128, shuffle := true, num_workers := 6,
        collate := CollateFn.splitDatasetCollate } := by
  refine ⟨?_, ?_, rfl⟩
  · rw [train_dataloader_indices]
    simp only [np_random_choice, List.length_map, List.length_range]
  · rw [train_dataloader_indices]
    exact np_random_choice_mem rng n 30000 hn

/-- Concrete witness for C6: a constant draw stream over a 5-element
training set. -/
theorem c6_train_loader_samples_witness :
    (Network.train_dataloader (fun _ => 0) 5).indices.length = 30000 ∧
    (∀ i ∈ (Network.train_dataloader (fun _ => 0) 5).indices, i < 5) ∧
    (Network.train_dataloader (fun _ => 0) 5).cfg =
      { batch_size := 128, shuffle := true, num_workers := 6,
        collate := CollateFn.splitDatasetCollate } :=
  c6_train_loader_samples (fun _ => 0) 5 (by decide)

/-- A deterministic linear congruential step, driving the seeded
pseudo-random generator of the sklearn split model. -/
def lcg (s : ℕ) : ℕ := (1103515245 * s + 12345) % 2147483648

/-- Seed-driven selection shuffle with explicit fuel: pick the element at
the seed-determined position, recurse on the rest with the stepped seed. -/
def shuffleFuel : ℕ → ℕ → List ℕ → List ℕ
  | 0, _, l => l
  | _ + 1, _, [] => []
  | fuel + 1, seed, x :: xs =>
    let j := seed % (x :: xs).length
    (x :: xs).getD j 0 :: shuffleFuel fuel (lcg seed) ((x :: xs).eraseIdx j)

/-- Model of sklearn `train_test_split(arr, test_size=t, random_state=r)`:
a deterministic permutation of the input driven by the integer
`random_state` when one is given (sklearn then ignores the ambient global
generator, modelled by `globalSeed`), the test set being the first `t`
elements of the permutation and the train set the rest. -/
def train_test_split (globalSeed : ℕ) (l : List ℕ) (testSize : ℕ)
    (randomState : Option ℕ) : List ℕ × List ℕ :=
  let seed := randomState.getD globalSeed
  let shuffled := shuffleFuel l.length seed l
  (shuffled.drop testSize, shuffled.take testSize)

/-- Source `Network.prepare_data` (models.py lines 39-47): split
`np.arange(len(dataset))` into train and validation indices with
`test_size=20_000, random_state=1234`; the split happens once, here, and
the resulting index lists are stored. -/
def Network.prepare_data (globalSeed : ℕ) (datasetLen : ℕ) :
    List ℕ × List ℕ :=
  train_test_split globalSeed (List.range datasetLen) 20000 (some 1234)

/-- Source `Network.val_dataloader` (models.py lines 130-137): wrap the
stored validation subset, without resampling it, in a loader with batch
size 256, no shuffling, 6 workers and `SplitDataset.collate_fn`. -/
def Network.val_dataloader (validIndices : List ℕ) : DataLoader :=
  { indices := validIndices
    cfg := { batch_size := 256, shuffle := false, num_workers := 6,
             collate := CollateFn.splitDatasetCollate } }

theorem shuffleFuel_length : ∀ (fuel seed : ℕ) (l : List ℕ),
    (shuffleFuel fuel seed l).length = l.length
  | 0, _, _ => rfl
  | _ + 1, _, [] => rfl
  | fuel + 1, seed, x :: xs => by
    simp only [shuffleFuel, List.length_cons,
      shuffleFuel_length fuel (lcg seed), List.length_eraseIdx]
    rw [if_pos (Nat.mod_lt _ (Nat.succ_pos xs.length))]
    omega

/-- Claim C7: data preparation ignores the ambient random state (the seed
1234 is fixed), so two runs over the same dataset produce the identical
split; the validation subset has exactly 20,000 indices; and the validation
loader uses batch size 256, no shuffling and the same collation function as
the training loader. -/
theorem c7_validation_split_fixed (g1 g2 : ℕ) (n : ℕ) (hn : 20000 ≤ n) :
    Network.prepare_data g1 n = Network.prepare_data g2 n ∧
    Network.prepare_data g1 n =
      train_test_split g1 (List.range n) 20000 (some 1234) ∧
    (Network.prepare_data g1 n).2.length = 20000 ∧
    (∀ v : List ℕ, (Network.val_dataloader v).cfg =
      { batch_size := 256, shuffle := false, num_workers := 6,
        collate := CollateFn.splitDatasetCollate }) ∧
    (∀ (v : List ℕ) (rng : ℕ → ℕ) (m : ℕ),
      (Network.val_dataloader v).cfg.collate =
        (Network.train_dataloader rng m).cfg.collate) := by
  refine ⟨rfl, rfl, ?_, fun v => rfl, fun v rng m => rfl⟩
  simp only [Network.prepare_data, train_test_split, List.length_take,
    shuffleFuel_length, List.length_range]
  omega

/-- Concrete witness for C7: two different ambient seeds over a dataset of
exactly 20,000 examples. -/
theorem c7_validation_split_fixed_witness :
    Network.prepare_data 0 20000 = Network.prepare_data 1 20000 ∧
    Network.prepare_data 0 20000 =
      train_test_split 0 (List.range 20000) 20000 (some 1234) ∧
    (Network.prepare_data 0 20000).2.length = 20000 ∧
    (∀ v : List ℕ, (Network.val_dataloader v).cfg =
      { batch_size := 256, shuffle := false, num_workers := 6,
        collate := CollateFn.splitDatasetCollate }) ∧
    (∀ (v : List ℕ) (rng : ℕ → ℕ) (m : ℕ),
      (Network.val_dataloader v).cfg.collate =
        (Network.train_dataloader rng m).cfg.collate) :=
  c7_validation_split_fixed 0 1 20000 (by decide)

/-- Numeric representation of a module's parameters. -/
inductive Precision
  | float32
  | float16
  | qint8
  | quint8
deriving DecidableEq, Repr

/-- Device a torch module resides on. -/
inductive Device
  | cpu
  | cuda
deriving DecidableEq, Repr

/-- The mutable runtime state of a network instance: its parameter values
(abstracted to one flat list), numeric precision and device. -/
structure NetState where
  params : List ℚ
  prec : Precision
  dev : Device
deriving DecidableEq, Repr

/-- Class constant `TORCHSCRIPT_CPU_NAME` (models.py line 22). -/
def TORCHSCRIPT_CPU_NAME : String := "torchscript_cpu_model.pt"

/-- Class constant `TORCHSCRIPT_CUDA_NAME` (models.py line 23). -/
def TORCHSCRIPT_CUDA_NAME : String := "torchscript_cuda_model.pt"

/-- Class constant `ONNX_NAME` (models.py line 24). -/
def ONNX_NAME : String := "model.onnx"

/-- Modelled from the spec: the class constant `TENSORFLOWJS_DIR_NAME` is
referenced at models.py line 178 but defined outside src/; the spec only
says `store` writes a quantized JS-runtime bundle directory, so the model
uses a fixed placeholder directory name. -/
def TENSORFLOWJS_DIR_NAME : String := "tensorflowjs_model"

/-- `self.half()`: cast the parameters to float16 in place; `r` is the
value rounding performed by the cast. -/
def halfCast (r : ℚ → ℚ) (s : NetState) : NetState :=
  { s with params := s.params.map r, prec := Precision.float16 }

/-- `self.float()`: cast the parameters to float32 in place (exact on
float16 values, so the values are kept). -/
def floatCast (s : NetState) : NetState :=
  { s with prec := Precision.float32 }

/-- `self.cuda()`: move the instance to the accelerator. -/
def cudaCast (s : NetState) : NetState := { s with dev := Device.cuda }

/-- `self.cpu()`: move the instance to the CPU. -/
def cpuCast (s : NetState) : NetState := { s with dev := Device.cpu }

/-- `torch.quantization.quantize_dynamic(m, {nn.LSTM, nn.Linear},
dtype=torch.qint8, inplace=True)`: 8-bit dynamic quantization, mutating the
instance it is given; `q` is the value transformation of the
quantization. -/
def quantize_dynamic (q : ℚ → ℚ) (s : NetState) : NetState :=
  { params := s.params.map q, prec := Precision.qint8, dev := s.dev }

/-- `tfjs.converters.save_keras_model(..., quantization_dtype=np.uint8)`
value side: uint8 quantization of the serialized copy, via `qjs`. -/
def quantize_uint8 (qjs : ℚ → ℚ) (s : NetState) : NetState :=
  { params := s.params.map qjs, prec := Precision.quint8, dev := s.dev }

/-- Modelled from the spec: `self.get_keras_equivalent()` (models.py line
177) is defined outside src/; the spec describes it as a hand-maintained,
structurally parallel Keras rebuild of the live network carrying the same
trained parameters. -/
def get_keras_equivalent (s : NetState) : NetState := s

/-- A file written into the store directory, recording which network state
was serialized into it. -/
structure SavedFile where
  name : String
  params : List ℚ
  prec : Precision
  dev : Device
deriving DecidableEq, Repr

/-- `torch.jit.trace(...).save(name)`, `torch.onnx.export(...)` and
`tfjs.converters.save_keras_model(...)`: serialize the given state under
the given file name. -/
def saveArtifact (name : String) (s : NetState) : SavedFile :=
  ⟨name, s.params, s.prec, s.dev⟩

/-- Source `Network.store` (models.py lines 139-180), as a state
transformer of the live network. Returned, in order: the live network's
final state, the files written into the store directory in write order,
and the logged warnings. `cuda` is `torch.cuda.is_available()`; `q`, `r`
and `qjs` are the value transformations of int8 dynamic quantization, the
float16 cast and the uint8 JS-bundle quantization. The CPU path builds a
fresh `Network(self.hparams)` (float32, CPU) and loads a copy of the live
state dict into it, so quantization mutates only that fresh instance. The
JS-bundle step uses `get_keras_equivalent` and `TENSORFLOWJS_DIR_NAME`,
which are defined outside src/ and modelled from the spec. -/
def Network.store (q r qjs : ℚ → ℚ) (cuda : Bool) (live : NetState) :
    NetState × List SavedFile × List String :=
  let quantized_model : NetState :=
    { params := live.params, prec := Precision.float32, dev := Device.cpu }
  let quantized_model := quantize_dynamic q quantized_model
  let files := [saveArtifact TORCHSCRIPT_CPU_NAME quantized_model]
  let step2 :=
    if cuda then
      let live2 := cudaCast (halfCast r live)
      (live2, files ++ [saveArtifact TORCHSCRIPT_CUDA_NAME live2],
        ([] : List String))
    else
      (live, files,
        ["CUDA is not available. CUDA version of model could not be stored."])
  let live3 := cpuCast (floatCast step2.1)
  let files3 := step2.2.1 ++ [saveArtifact ONNX_NAME live3]
  let files4 := files3 ++
    [saveArtifact TENSORFLOWJS_DIR_NAME
      (quantize_uint8 qjs (get_keras_equivalent live3))]
  (live3, files4, step2.2.2)

/-- Claim C1: `store` always writes the quantized CPU TorchScript file, the
ONNX file and the JS bundle directory; it writes the CUDA TorchScript file
exactly when CUDA is available; and when CUDA is unavailable it logs a
warning and still continues to the remaining artifacts. -/
theorem c1_store_artifact_files (q r qjs : ℚ → ℚ) (cuda : Bool)
    (live : NetState) :
    TORCHSCRIPT_CPU_NAME ∈
        ((Network.store q r qjs cuda live).2.1.map SavedFile.name) ∧
    ONNX_NAME ∈ ((Network.store q r qjs cuda live).2.1.map SavedFile.name) ∧
    TENSORFLOWJS_DIR_NAME ∈
        ((Network.store q r qjs cuda live).2.1.map SavedFile.name) ∧
    (TORCHSCRIPT_CUDA_NAME ∈
        ((Network.store q r qjs cuda live).2.1.map SavedFile.name) ↔
      cuda = true) ∧
    ((Network.store q r qjs cuda live).2.2 ≠ [] ↔ cuda = false) := by
  cases cuda <;>
    simp [Network.store, saveArtifact, TORCHSCRIPT_CPU_NAME,
      TORCHSCRIPT_CUDA_NAME, ONNX_NAME, TENSORFLOWJS_DIR_NAME]

/-- Claim C10: the quantized-CPU export path quantizes only the fresh copy
(the written CPU artifact holds the quantized copy of the live values),
while the live network ends on the CPU in float32 whatever the inputs; its
final parameter values carry no `q` quantization, only the float16 rounding
`r` when CUDA was available, in which case the CUDA artifact was traced
from the live network in float16 on the accelerator. -/
theorem c10_store_live_state (q r qjs : ℚ → ℚ) (cuda : Bool)
    (live : NetState) :
    (Network.store q r qjs cuda live).1.prec = Precision.float32 ∧
    (Network.store q r qjs cuda live).1.dev = Device.cpu ∧
    (Network.store q r qjs cuda live).1.params =
      (if cuda then live.params.map r else live.params) ∧
    saveArtifact TORCHSCRIPT_CPU_NAME
        (quantize_dynamic q
          { params := live.params, prec := Precision.float32,
            dev := Device.cpu }) ∈
      (Network.store q r qjs cuda live).2.1 ∧
    (SavedFile.mk TORCHSCRIPT_CUDA_NAME (live.params.map r)
          Precision.float16 Device.cuda ∈
        (Network.store q r qjs cuda live).2.1 ↔
      cuda = true) := by
  cases cuda <;>
    simp [Network.store, saveArtifact, quantize_dynamic, quantize_uint8,
      get_keras_equivalent, halfCast, floatCast, cudaCast, cpuCast,
      TORCHSCRIPT_CPU_NAME, TORCHSCRIPT_CUDA_NAME, ONNX_NAME,
      TENSORFLOWJS_DIR_NAME]
